import Mathlib

/-
  Verification development for the decorator library in deco.py.

  The file shallowly embeds the five combinators of the source file
  (disable, decorator, countcalls, memo, n_ary, trace) as pure Lean
  functions.  Mutable state owned by a wrapper (a call counter, a memo
  cache, a trace depth counter together with the printed lines) is made
  explicit as a state value threaded through each call; a raised Python
  exception is modelled with Except.  All definitions are executable.
-/

namespace Deco

/-- Association-list lookup with decidable key equality; models a lookup
in a Python dict keyed by the memo cache key. -/
def lookupKey {K R : Type} [DecidableEq K] : List (K × R) → K → Option R
  | [], _ => none
  | (k, v) :: rest, q => if k = q then some v else lookupKey rest q

/-- A call argument set: positional arguments in order plus keyword
arguments as (keyword, value) pairs, over a value type V.  Models the
(args, kwargs) pair received by a wrapper. -/
structure CallArgs (V : Type) where
  pos : List V
  kw : List (String × V)
deriving DecidableEq

/-- Insert one keyword pair into a keyword list sorted by keyword name;
helper for the canonical cache key (keyword names in a dict are unique,
so comparing the names alone decides the order). -/
def insertKw {V : Type} (p : String × V) : List (String × V) → List (String × V)
  | [] => [p]
  | q :: rest => if p.1 ≤ q.1 then p :: q :: rest else q :: insertKw p rest

/-- Sort a keyword list by keyword name; models tuple(sorted(kwargs.items())). -/
def sortKw {V : Type} : List (String × V) → List (String × V)
  | [] => []
  | p :: rest => insertKw p (sortKw rest)

/-- Canonical cache key of a call, as built by the memo wrapper:
all_args = args, tuple(sorted(kwargs.items())). -/
def canonKey {V : Type} (a : CallArgs V) : List V × List (String × V) :=
  (a.pos, sortKw a.kw)

/-
  n_ary: the loop
      result = None
      for i in reversed(args):
          result = i if result is None else func(i, result)
      return result
  is a left fold of one step over the reversed argument list; the Python
  sentinel None held by result is Option.none of the accumulator.
-/

/-- One iteration of the n_ary loop body. -/
def n_ary_step {α : Type} (func : α → α → α) (result : Option α) (i : α) : Option α :=
  match result with
  | none => some i
  | some r => some (func i r)

/-- The wrapper produced by n_ary(func), applied to positional args. -/
def n_ary_apply {α : Type} (func : α → α → α) (args : List α) : Option α :=
  args.reverse.foldl (n_ary_step func) none

/-- The n_ary loop instrumented to also count how many times func is
invoked. -/
def n_ary_step_count {α : Type} (func : α → α → α) (s : Option α × Nat) (i : α) :
    Option α × Nat :=
  match s.1 with
  | none => (some i, s.2)
  | some r => (some (func i r), s.2 + 1)

/-- Instrumented n_ary wrapper: result together with the number of
invocations of func. -/
def n_ary_apply_count {α : Type} (func : α → α → α) (args : List α) :
    Option α × Nat :=
  args.reverse.foldl (n_ary_step_count func) (none, 0)

/-- The right fold op(a1, op(a2, ..., op(a_(n-1), a_n)...)) of a binary
operation over a nonempty operand list, written from the specification
of the n-ary reducer for comparison with the source loop. -/
def rightFold1 {α : Type} (f : α → α → α) : α → List α → α
  | a, [] => a
  | a, b :: rest => f a (rightFold1 f b rest)

lemma n_ary_loop_some {α : Type} (f : α → α → α) :
    ∀ (l : List α) (r : α),
      l.foldl (n_ary_step f) (some r) = some (l.foldl (fun acc i => f i acc) r) := by
  intro l
  induction l with
  | nil => intro r; rfl
  | cons x xs ih => intro r; simpa [n_ary_step] using ih (f x r)

lemma n_ary_apply_cons {α : Type} (f : α → α → α) :
    ∀ (rest : List α) (a : α), n_ary_apply f (a :: rest) = some (rightFold1 f a rest) := by
  intro rest
  induction rest with
  | nil => intro a; rfl
  | cons b rest' ih =>
      intro a
      have hrev : (a :: b :: rest').reverse = (b :: rest').reverse ++ [a] := by
        simp
      have hinner := ih b
      unfold n_ary_apply at hinner ⊢
      rw [hrev, List.foldl_append, hinner]
      simp [n_ary_step, rightFold1]

/-- Claim C4: the variadic operation produced by n_ary, applied to a
single operand, returns that operand unchanged without invoking the
binary operation; applied to two or more operands it returns the right
fold seeded with the last operand, applying op toward the first. -/
theorem n_ary_identity_rightfold {α : Type} :
    (∀ (f : α → α → α) (a : α), n_ary_apply_count f [a] = (some a, 0)) ∧
    (∀ (f : α → α → α) (a b : α) (rest : List α),
      n_ary_apply f (a :: b :: rest) = some (rightFold1 f a (b :: rest))) := by
  constructor
  · intro f a; rfl
  · intro f a b rest; exact n_ary_apply_cons f (b :: rest) a

/-
  The stateful combinators.  A wrapper is a function S → A → S × Except E R:
  it receives its private mutable state and the call arguments and returns
  the updated state together with a normal result (Except.ok) or a raised
  exception (Except.error).  Stacking combinators pairs their states, the
  outer state on the left, exactly as outer(inner(target)) nests wrappers.
-/

/-- A raw target with no state of its own, lifted to the wrapper shape. -/
def baseW {A R E : Type} (f : A → Except E R) : Unit → A → Unit × Except E R :=
  fun u a => (u, f a)

/-- The countcalls wrapper: increments its calls attribute, then invokes
the wrapped callable and passes its outcome through; the increment is
kept even when the inner call raises. -/
def countW {A R E S : Type} (inner : S → A → S × Except E R) :
    Nat × S → A → (Nat × S) × Except E R :=
  fun cs a =>
    match inner cs.2 a with
    | (s', r) => ((cs.1 + 1, s'), r)

/-- The memo wrapper: looks the key of the arguments up in its cache; on
a hit it returns the stored result without invoking the inner callable;
on a miss it invokes the inner callable and, only when that returns
normally, stores the result under the key (cache[all_args] = func(...)
is never reached when func raises). -/
def memoW {A K R E S : Type} [DecidableEq K] (key : A → K)
    (inner : S → A → S × Except E R) :
    List (K × R) × S → A → (List (K × R) × S) × Except E R :=
  fun cs a =>
    match lookupKey cs.1 (key a) with
    | some v => (cs, Except.ok v)
    | none =>
      match inner cs.2 a with
      | (s', Except.ok v) => ((cs.1 ++ [(key a, v)], s'), Except.ok v)
      | (s', Except.error e) => ((cs.1, s'), Except.error e)

/-- Run a wrapper over a sequence of calls, keeping the final state. -/
def runSeq {A R E S : Type} (w : S → A → S × Except E R) : S → List A → S
  | s, [] => s
  | s, a :: rest => runSeq w (w s a).1 rest

lemma countW_runSeq {A R E S : Type} (inner : S → A → S × Except E R) :
    ∀ (as : List A) (c : Nat) (s : S),
      (runSeq (countW inner) (c, s) as).1 = c + as.length := by
  intro as
  induction as with
  | nil => intro c s; simp [runSeq]
  | cons a rest ih =>
      intro c s
      have h : (countW inner (c, s) a).1 = (c + 1, (inner s a).1) := by
        unfold countW
        rcases inner s a with ⟨s', r⟩
        rfl
      calc (runSeq (countW inner) (c, s) (a :: rest)).1
          = (runSeq (countW inner) (countW inner (c, s) a).1 rest).1 := rfl
        _ = (runSeq (countW inner) (c + 1, (inner s a).1) rest).1 := by rw [h]
        _ = (c + 1) + rest.length := ih (c + 1) (inner s a).1
        _ = c + (a :: rest).length := by simp; omega

/-- Claim C7: the countcalls wrapper counts calls made, not calls
completed: starting from a fresh counter, after exactly k invocations of
the wrapper, for any arguments and any inner outcomes (normal returns or
raised exceptions alike), the calls attribute reads exactly k. -/
theorem countcalls_counts_all_calls {A R E S : Type}
    (inner : S → A → S × Except E R) (s0 : S) (as : List A) :
    (runSeq (countW inner) (0, s0) as).1 = as.length := by
  simpa using countW_runSeq inner as 0 s0

/-- A memo wrapper around a target instrumented with an inner call
counter, as in the single-evaluation scenario of the specification:
memo(count(T)).  State: (cache, (inner calls, unit)). -/
def memoInstr {A K R E : Type} [DecidableEq K] (key : A → K) (T : A → Except E R) :
    List (K × R) × Nat × Unit → A → (List (K × R) × Nat × Unit) × Except E R :=
  memoW key (countW (baseW T))

/-- The fresh state of memoInstr: empty cache, counter 0. -/
def memoInstrStart {K R : Type} : List (K × R) × Nat × Unit := ([], 0, ())

/-- Claim C3: memo single-evaluation and transparency.  With the target
instrumented by an inner call counter, calling the memo wrapper twice
with the same arguments invokes the target exactly once and returns the
target result both times; a call whose canonical key differs invokes the
target again. -/
theorem memo_single_evaluation {V R : Type} [DecidableEq V]
    (T : CallArgs V → R) (A B : CallArgs V)
    (hne : canonKey B ≠ canonKey A) :
    let w := memoInstr canonKey (fun a => (Except.ok (T a) : Except String R))
    let p1 := w memoInstrStart A
    let p2 := w p1.1 A
    let p3 := w p2.1 B
    p1.2 = Except.ok (T A) ∧ p2.2 = Except.ok (T A) ∧
    p1.1.2.1 = 1 ∧ p2.1.2.1 = 1 ∧ p3.1.2.1 = 2 := by
  have hne' : canonKey A ≠ canonKey B := Ne.symm hne
  simp [memoInstr, memoW, countW, baseW, lookupKey, memoInstrStart, hne']

/-- Witness for C3 at the concrete argument sets (4, 3) and (4, 3, 2)
with target returning the number of positional arguments. -/
theorem memo_single_evaluation_witness :
    (let w := memoInstr canonKey
        (fun a : CallArgs Int => (Except.ok a.pos.length : Except String Nat))
     let p1 := w memoInstrStart ⟨[4, 3], []⟩
     let p2 := w p1.1 ⟨[4, 3], []⟩
     let p3 := w p2.1 ⟨[4, 3, 2], []⟩
     p1.2 = Except.ok 2 ∧ p2.2 = Except.ok 2 ∧
     p1.1.2.1 = 1 ∧ p2.1.2.1 = 1 ∧ p3.1.2.1 = 2) :=
  memo_single_evaluation (fun a => a.pos.length) ⟨[4, 3], []⟩ ⟨[4, 3, 2], []⟩ (by decide)

/-- Claim C6: memo error atomicity.  When the target raises on a cache
miss, the error propagates, nothing is stored under the key, and a
subsequent identical call invokes the target again (the inner counter
reaches 2) rather than replaying a stored value. -/
theorem memo_error_atomicity {V R : Type} [DecidableEq V]
    (T : CallArgs V → Except String R) (A : CallArgs V) (e : String)
    (he : T A = Except.error e) :
    let w := memoInstr canonKey T
    let p1 := w memoInstrStart A
    let p2 := w p1.1 A
    p1.2 = Except.error e ∧ p1.1.1 = [] ∧ p1.1.2.1 = 1 ∧
    p2.2 = Except.error e ∧ p2.1.1 = [] ∧ p2.1.2.1 = 2 := by
  simp [memoInstr, memoW, countW, baseW, lookupKey, memoInstrStart, he]

/-- Witness for C6 with a target that always raises. -/
theorem memo_error_atomicity_witness :
    (let w := memoInstr canonKey
        (fun _ : CallArgs Int => (Except.error ("boom") : Except String Nat))
     let p1 := w memoInstrStart ⟨[1], []⟩
     let p2 := w p1.1 ⟨[1], []⟩
     p1.2 = Except.error ("boom") ∧ p1.1.1 = [] ∧ p1.1.2.1 = 1 ∧
     p2.2 = Except.error ("boom") ∧ p2.1.1 = [] ∧ p2.1.2.1 = 2) :=
  memo_error_atomicity (fun _ => Except.error ("boom")) ⟨[1], []⟩ ("boom") rfl

/-
  The composition-order scenario: the two stacking orders of countcalls
  and memo around n_ary(add), as in the bar-shaped and foo-shaped stacks
  of the source, called with (4, 3), (4, 3), (4, 3, 2).
-/

/-- The raw n-ary addition target n_ary(add) over the integers, lifted
to the wrapper shape (it never raises). -/
def addTarget : List Int → Except String (Option Int) :=
  fun args => Except.ok (n_ary_apply (fun a b => a + b) args)

/-- Cache key of a positional-only call, as the memo wrapper builds it. -/
def posKey (args : List Int) : List Int × List (String × Int) :=
  canonKey ⟨args, []⟩

/-- countcalls outermost over memo: the stacking of bar. -/
def w1 := countW (memoW posKey (baseW addTarget))

/-- memo outermost over countcalls: the stacking of foo. -/
def w2 := memoW posKey (countW (baseW addTarget))

/-- The call sequence of the composition-order scenario. -/
def demoSeq : List (List Int) := [[4, 3], [4, 3], [4, 3, 2]]

/-- Claim C2: composition order is observable.  With countcalls outside
memo, the three calls (4, 3), (4, 3), (4, 3, 2) leave the counter at 3
(cache hits are counted); with memo outside countcalls, the same three
calls leave the inner counter at 2, because the cache hit never reaches
the inner counter. -/
theorem composition_order_observable :
    (runSeq w1 (0, ([], ())) demoSeq).1 = 3 ∧
    (runSeq w2 ([], (0, ())) demoSeq).2.1 = 2 := by
  decide

/-
  The trace wrapper.  Its private state is the nesting level together
  with the lines printed so far.  The wrapped target is modelled as a
  state transformer so that it can itself print and, through re-entrant
  calls of the same wrapper, move the level; the raw target of the
  source touches the level only through such re-entrant wrapper calls,
  each of which restores the level on a normal return (see
  traceCall_level_restore below), which justifies the level hypothesis
  of the format theorem.
-/

/-- State owned by one trace wrapper: its depth counter and the lines
printed to standard output so far. -/
structure TraceState where
  level : Nat
  out : List String
deriving DecidableEq

/-- Repetition of the delimiter string: delimiter * level. -/
def strRepeat (s : String) : Nat → String
  | 0 => ""
  | n + 1 => s ++ strRepeat s n

/-- The entry line: delimiter * level, a space, the arrow, a space, the
target name, the rendered argument tuple. -/
def entryLine (delim fname argsR : String) (lvl : Nat) : String :=
  strRepeat delim lvl ++ " --> " ++ fname ++ argsR

/-- The exit line: delimiter * level, a space, the arrow, a space, the
target name, the rendered argument tuple, then the rendered result. -/
def exitLine (delim fname argsR result : String) (lvl : Nat) : String :=
  strRepeat delim lvl ++ " <-- " ++ fname ++ argsR ++ " == " ++ result

/-- One invocation through the trace wrapper: print the entry line at
the current level, increment the level, invoke the target; on a normal
return decrement the level, print the exit line at the decremented
level and return the result; on a raise, propagate the error with no
exit line and no decrement. -/
def traceCall {R E : Type} (delim fname argsR : String) (render : R → String)
    (target : TraceState → TraceState × Except E R) (s : TraceState) :
    TraceState × Except E R :=
  match target ⟨s.level + 1, s.out ++ [entryLine delim fname argsR s.level]⟩ with
  | (s3, Except.error e) => (s3, Except.error e)
  | (s3, Except.ok v) =>
      (⟨s3.level - 1, s3.out ++ [exitLine delim fname argsR (render v) (s3.level - 1)]⟩,
        Except.ok v)

/-- A wrapper call that returns normally restores the level it was
entered at, provided the target does so too; hence any target built
from level-neutral pieces and re-entrant wrapper calls is itself
level-neutral on a normal return. -/
lemma traceCall_level_restore {R E : Type} (delim fname argsR : String)
    (render : R → String) (target : TraceState → TraceState × Except E R)
    (s s3 : TraceState) (v : R)
    (h : target ⟨s.level + 1, s.out ++ [entryLine delim fname argsR s.level]⟩
          = (s3, Except.ok v))
    (hlvl : s3.level = s.level + 1) :
    (traceCall delim fname argsR render target s).1.level = s.level := by
  unfold traceCall
  rw [h]
  dsimp only
  rw [hlvl]
  omega

/-- Claim C5: trace line format and depth symmetry.  For an invocation
entered at depth D that returns normally, the entry line printed is the
delimiter repeated D times, a space, the entry arrow, a space, the name
and rendered arguments; the exit line is the delimiter repeated D times
with the exit arrow and the rendered result appended; both lines carry
the same indentation and the depth counter is restored to D. -/
theorem trace_line_format_depth {R E : Type} (delim fname argsR : String)
    (render : R → String) (target : TraceState → TraceState × Except E R)
    (s s3 : TraceState) (v : R)
    (h : target ⟨s.level + 1, s.out ++ [entryLine delim fname argsR s.level]⟩
          = (s3, Except.ok v))
    (hlvl : s3.level = s.level + 1) :
    traceCall delim fname argsR render target s
      = (⟨s.level, s3.out ++ [exitLine delim fname argsR (render v) s.level]⟩,
          Except.ok v) := by
  unfold traceCall
  rw [h]
  dsimp only
  rw [hlvl]
  simp

/-- Witness for C5: a leaf target at depth 0, delimiter #, one call. -/
theorem trace_line_format_depth_witness :
    traceCall ("#") ("f") ("(1,)") (fun n : Nat => toString n)
        (fun st => ((st, Except.ok 2) : TraceState × Except String Nat)) ⟨0, []⟩
      = (⟨0, [entryLine ("#") ("f") ("(1,)") 0,
              exitLine ("#") ("f") ("(1,)") ("2") 0]⟩, Except.ok 2) := by
  have h := trace_line_format_depth ("#") ("f") ("(1,)") (fun n : Nat => toString n)
    (fun st => ((st, Except.ok 2) : TraceState × Except String Nat)) ⟨0, []⟩
    ⟨1, [entryLine ("#") ("f") ("(1,)") 0]⟩ 2 rfl rfl
  simpa using h

/-- Claim C8: trace exit-line suppression on error.  When the target
raises, the entry line has already been printed and the increment
performed (both are part of the state handed to the target), the error
propagates unchanged, and the wrapper appends no exit line and performs
no decrement: its result is exactly the target's state and error. -/
theorem trace_error_suppresses_exit {R E : Type} (delim fname argsR : String)
    (render : R → String) (target : TraceState → TraceState × Except E R)
    (s s3 : TraceState) (e : E)
    (h : target ⟨s.level + 1, s.out ++ [entryLine delim fname argsR s.level]⟩
          = (s3, Except.error e)) :
    traceCall delim fname argsR render target s = (s3, Except.error e) := by
  unfold traceCall
  rw [h]

/-- Witness for C8: a target that raises at once; the entry line is on
the output, no exit line follows, the level stays incremented. -/
theorem trace_error_suppresses_exit_witness :
    traceCall ("#") ("f") ("(1,)") (fun n : Nat => toString n)
        (fun st => ((st, Except.error ("boom")) : TraceState × Except String Nat)) ⟨0, []⟩
      = (⟨1, [entryLine ("#") ("f") ("(1,)") 0]⟩, Except.error ("boom")) :=
  trace_error_suppresses_exit ("#") ("f") ("(1,)") (fun n : Nat => toString n)
    (fun st => ((st, Except.error ("boom")) : TraceState × Except String Nat)) ⟨0, []⟩
    ⟨1, [entryLine ("#") ("f") ("(1,)") 0]⟩ ("boom") rfl

/-
  The decorated fib of the source: countcalls(trace(memo(raw fib))),
  with the raw body 1 if n <= 1 else fib(n-1) + fib(n-2) whose recursive
  calls go through the outermost wrapper.  One state value carries the
  counter of the countcalls wrapper, the level and output of the trace
  wrapper, and the cache of the memo wrapper.  The recursion is driven
  by a fuel argument; fuel exhaustion yields none and never occurs for
  fuel larger than the argument.
-/

/-- The combined state of the three wrappers stacked on fib. -/
structure FibState where
  calls : Nat
  level : Nat
  out : List String
  cache : List (Nat × Nat)
deriving DecidableEq

/-- Entry line of the traced fib call; the argument tuple (n,) is
rendered with its trailing comma as Python prints it. -/
def fibEntry (delim : String) (lvl n : Nat) : String :=
  entryLine delim ("fib") ("(" ++ toString n ++ ",)") lvl

/-- Exit line of the traced fib call. -/
def fibExit (delim : String) (lvl n v : Nat) : String :=
  exitLine delim ("fib") ("(" ++ toString n ++ ",)") (toString v) lvl

/-- One call of the decorated fib: countcalls increments, trace prints
the entry line and increments the level, memo checks its cache; on a
hit the stored value is returned (the raw body is bypassed), on a miss
the raw body runs, its recursive calls re-entering this same function,
and the result is stored; trace then decrements the level and prints
the exit line at the decremented level. -/
def fibW (delim : String) : Nat → Nat → FibState → Option (FibState × Nat)
  | 0, _, _ => none
  | fuel + 1, n, s =>
    let s2 : FibState :=
      ⟨s.calls + 1, s.level + 1, s.out ++ [fibEntry delim s.level n], s.cache⟩
    match lookupKey s2.cache n with
    | some v =>
        some (⟨s2.calls, s2.level - 1,
               s2.out ++ [fibExit delim (s2.level - 1) n v], s2.cache⟩, v)
    | none =>
        if n ≤ 1 then
          some (⟨s2.calls, s2.level - 1,
                 s2.out ++ [fibExit delim (s2.level - 1) n 1],
                 s2.cache ++ [(n, 1)]⟩, 1)
        else
          match fibW delim fuel (n - 1) s2 with
          | none => none
          | some (sa, a) =>
            match fibW delim fuel (n - 2) sa with
            | none => none
            | some (sb, b) =>
              some (⟨sb.calls, sb.level - 1,
                     sb.out ++ [fibExit delim (sb.level - 1) n (a + b)],
                     sb.cache ++ [(n, a + b)]⟩, a + b)

/-- Amended claim C1: in count(trace(#)(memo(fib))) the trace wrapper
sits outside the memo wrapper, so every call through the stack prints
its entry and exit lines, cache hits included; what a hit bypasses is
only the raw body, so no sub-call lines appear beneath a repeated
argument: deeper lines occur only under the first computation of each
distinct argument.  The full run of fib(3): the repeated fib(1) call is
traced again at depth 1, with no lines beneath it, and 5 calls are
counted while only 4 distinct arguments are ever computed and cached. -/
theorem fib_trace_output :
    fibW ("#") 10 3 ⟨0, 0, [], []⟩ =
      some (⟨5, 0,
        [" --> fib(3,)",
         "# --> fib(2,)",
         "## --> fib(1,)",
         "## <-- fib(1,) == 1",
         "## --> fib(0,)",
         "## <-- fib(0,) == 1",
         "# <-- fib(2,) == 2",
         "# --> fib(1,)",
         "# <-- fib(1,) == 1",
         " <-- fib(3,) == 3"],
        [(1, 1), (0, 1), (2, 2), (3, 3)]⟩, 3) := by
  decide

/-- The state reached inside the fib(3) run right after fib(2) returns:
4 calls counted, level 1, the first seven lines printed, and 1, 0 and 2
cached.  The next step of the raw body of fib(3) is the recursive call
fib(1). -/
def fibHitState : FibState :=
  ⟨4, 1,
   [" --> fib(3,)",
    "# --> fib(2,)",
    "## --> fib(1,)",
    "## <-- fib(1,) == 1",
    "## --> fib(0,)",
    "## <-- fib(0,) == 1",
    "# <-- fib(2,) == 2"],
   [(1, 1), (0, 1), (2, 2)]⟩

/-- Counterexample to claim C1 as stated: in the fib(3) run the
recursive sub-call fib(1) arrives while 1 is already in the memo cache,
yet it prints an entry line and an exit line (the trace wrapper sits
outside the memo wrapper); accordingly the full run prints two entry
lines for the argument 1, not one. -/
theorem cache_hit_prints_trace_cex :
    lookupKey fibHitState.cache 1 = some 1 ∧
    fibW ("#") 10 1 fibHitState =
      some (⟨5, 1,
        fibHitState.out ++ ["# --> fib(1,)", "# <-- fib(1,) == 1"],
        fibHitState.cache⟩, 1) ∧
    (fibW ("#") 10 3 ⟨0, 0, [], []⟩).map
        (fun p => (p.1.out.count ("## --> fib(1,)")) + (p.1.out.count ("# --> fib(1,)")))
      = some 2 := by
  refine ⟨by decide, by decide, ?_⟩
  decide

/-
  Introspection metadata.  Each combinator either applies
  functools.wraps to its wrapper, copying the target name and docstring
  onto it, or leaves the wrapper with its own generic identity.  In the
  source, disable, decorator, countcalls, memo and the trace factory
  all apply functools.wraps; the n_ary wrapper does not.
-/

/-- The descriptive metadata of a function object: its dunder name and
docstring. -/
structure FnMeta where
  pyName : String
  doc : Option String
deriving DecidableEq

/-- Metadata of the wrapper produced by disable: functools.wraps copies
the target metadata. -/
def disableMeta (func : FnMeta) : FnMeta := func

/-- Metadata of the wrapper produced by decorator: functools.wraps
copies the target metadata. -/
def decoratorMeta (func : FnMeta) : FnMeta := func

/-- Metadata of the wrapper produced by countcalls: functools.wraps
copies the target metadata. -/
def countcallsMeta (func : FnMeta) : FnMeta := func

/-- Metadata of the wrapper produced by memo: functools.wraps copies
the target metadata. -/
def memoMeta (func : FnMeta) : FnMeta := func

/-- Metadata of the wrapper produced by trace(delim): functools.wraps
copies the target metadata. -/
def traceMeta (func : FnMeta) : FnMeta := func

/-- Metadata of the wrapper produced by n_ary: no functools.wraps is
applied, so the wrapper keeps the generic local name wrapper and has no
docstring. -/
def n_aryMeta (_ : FnMeta) : FnMeta := ⟨"wrapper", none⟩

/-- Counterexample to claim C9 as stated: the wrapper n_ary produces
for the target named foo exposes the name wrapper, not foo. -/
theorem n_ary_meta_cex :
    n_aryMeta ⟨"foo", none⟩ = ⟨"wrapper", none⟩ ∧
    ¬ (n_aryMeta ⟨"foo", none⟩).pyName = "foo" := by
  decide

/-- Amended claim C9: disable, decorator, countcalls, memo and trace
expose the target name and docstring on their wrappers, but n_ary does
not: its wrapper exposes the generic name wrapper and no docstring, so
a stack containing n_ary, such as memo(countcalls(n_ary(target))),
exposes the generic name even though the outer combinators forward
metadata faithfully. -/
theorem metadata_preservation_amended (m : FnMeta) :
    disableMeta m = m ∧ decoratorMeta m = m ∧ countcallsMeta m = m ∧
    memoMeta m = m ∧ traceMeta m = m ∧
    n_aryMeta m = ⟨"wrapper", none⟩ ∧
    memoMeta (countcallsMeta (n_aryMeta m)) = ⟨"wrapper", none⟩ :=
  ⟨rfl, rfl, rfl, rfl, rfl, rfl, rfl⟩

/-
  The calls attribute of the foo stack memo(countcalls(n_ary(add))).
  functools.wraps also merges the dunder dict of the wrapped function
  into the new wrapper, so when memo wraps the countcalls wrapper, the
  memo wrapper receives a copy of the calls entry with its value at
  construction time, 0.  Later increments assign to the countcalls
  wrapper own attribute and never touch the copy.
-/

/-- The foo composite object: the memo cache, the calls attribute of
the inner countcalls wrapper (the one its increments target), and the
calls attribute copied onto the outer memo wrapper at construction. -/
structure FooObj where
  cache : List ((List Int × List (String × Int)) × Option Int)
  innerCalls : Nat
  callsAttr : Nat
deriving DecidableEq

/-- A freshly constructed foo: empty cache, inner counter 0, and the
outer copy frozen at the inner value at wrap time, 0. -/
def fooNew : FooObj := ⟨[], 0, 0⟩

/-- One call of foo: memo checks its cache; on a hit nothing below runs;
on a miss the inner countcalls wrapper increments its own attribute and
n_ary(add) computes the value, which memo stores.  The copied attribute
on the outer wrapper is never written. -/
def fooInvoke (o : FooObj) (args : List Int) : FooObj × Option Int :=
  match lookupKey o.cache (canonKey ⟨args, []⟩) with
  | some v => (o, v)
  | none =>
      let v := n_ary_apply (fun a b => a + b) args
      (⟨o.cache ++ [(canonKey ⟨args, []⟩, v)], o.innerCalls + 1, o.callsAttr⟩, v)

/-- Run foo over a sequence of calls, keeping the final object. -/
def fooRun (o : FooObj) : List (List Int) → FooObj
  | [] => o
  | args :: rest => fooRun (fooInvoke o args).1 rest

lemma fooInvoke_callsAttr (o : FooObj) (args : List Int) :
    ((fooInvoke o args).1).callsAttr = o.callsAttr := by
  unfold fooInvoke
  rcases h : lookupKey o.cache (canonKey ⟨args, []⟩) with _ | v <;> simp [h]

lemma fooRun_callsAttr : ∀ (seq : List (List Int)) (o : FooObj),
    (fooRun o seq).callsAttr = o.callsAttr := by
  intro seq
  induction seq with
  | nil => intro o; rfl
  | cons args rest ih =>
      intro o
      calc (fooRun o (args :: rest)).callsAttr
          = (fooRun (fooInvoke o args).1 rest).callsAttr := rfl
        _ = ((fooInvoke o args).1).callsAttr := ih (fooInvoke o args).1
        _ = o.callsAttr := fooInvoke_callsAttr o args

/-- Claim C10: the calls attribute readable on the outer memo wrapper of
foo is the construction-time copy of the inner counter, 0, and stays 0
under every call sequence, while the inner countcalls wrapper attribute
holds the true count: after the demonstration calls (4, 3), (4, 3, 2),
(4, 3) it reads 2. -/
theorem outer_calls_attr_frozen :
    (∀ seq : List (List Int), (fooRun fooNew seq).callsAttr = 0) ∧
    (fooRun fooNew [[4, 3], [4, 3, 2], [4, 3]]).innerCalls = 2 := by
  refine ⟨fun seq => fooRun_callsAttr seq fooNew, by decide⟩

end Deco
